import Mathlib

set_option linter.unusedVariables false

/-!
Verification development for the vectra-mcp-server repository.

The TypeScript sources are shallowly embedded in Lean:
JSON-like runtime values become the inductive `JsonV` (JSON numbers are
modelled as integers; no claim depends on fractional formatting), the
argument validators become Boolean functions over `JsonV`, the response
formatter becomes a total function whose internal exceptions are modelled
with `Except`, the HTTP layer is modelled by an oracle giving each
outbound call its outcome, and the request router becomes a function
from tool name and arguments to a response envelope plus the list of
HTTP requests it issues.
-/

/-- A JavaScript runtime value as it can appear in this program:
the JSON universe plus `undefined`, which arises from property access. -/
inductive JsonV where
  | undefined
  | null
  | bool (b : Bool)
  | num (n : Int)
  | str (s : String)
  | arr (elems : List JsonV)
  | obj (fields : List (String × JsonV))

/-- The JavaScript `typeof` operator on a `JsonV` value.
Note `typeof null`, `typeof []` and `typeof` of plain objects are all the
string "object". -/
def jsTypeof : JsonV → String
  | .undefined => "undefined"
  | .null => "object"
  | .bool _ => "boolean"
  | .num _ => "number"
  | .str _ => "string"
  | .arr _ => "object"
  | .obj _ => "object"

def jsIsNull : JsonV → Bool
  | .null => true
  | _ => false

def jsIsUndefined : JsonV → Bool
  | .undefined => true
  | _ => false

/-- JavaScript truthiness. `NaN` is not representable in the model. -/
def jsTruthy : JsonV → Bool
  | .undefined => false
  | .null => false
  | .bool b => b
  | .num n => n != 0
  | .str s => s != ""
  | .arr _ => true
  | .obj _ => true

/-- Property read `v[key]` for a base value that is neither `null` nor
`undefined` (reads on those bases throw and are modelled separately).
Arrays and strings expose `length`; named properties of primitives and
absent object keys give `undefined`. -/
def jsGet : JsonV → String → JsonV
  | .obj fields, key => (fields.lookup key).getD .undefined
  | .arr xs, key => if key = "length" then .num xs.length else .undefined
  | .str s, key => if key = "length" then .num s.length else .undefined
  | _, _ => .undefined

/-- Optional-chaining property read `v?.key`: `undefined` when the base is
`null` or `undefined`, otherwise a plain property read. -/
def jsGetOpt (v : JsonV) (key : String) : JsonV :=
  match v with
  | .undefined => .undefined
  | .null => .undefined
  | _ => jsGet v key

/-- `Object.keys`: own enumerable keys.  For arrays these are the element
indices; JavaScript objects cannot carry duplicate keys, so the
association-list field names are taken as given. -/
def jsKeys : JsonV → List String
  | .obj fields => fields.map Prod.fst
  | .arr xs => (List.range xs.length).map toString
  | _ => []

/-- The recurring guard `typeof v === "object" && v !== null`. -/
def isObjNonNull (v : JsonV) : Bool :=
  jsTypeof v = "object" && !(jsIsNull v)

mutual
/-- JavaScript string conversion as used by template literals:
arrays join their elements with commas (null and undefined elements
render as the empty string) and plain objects render as
"[object Object]". -/
def jsToString : JsonV → String
  | .undefined => "undefined"
  | .null => "null"
  | .bool b => if b then "true" else "false"
  | .num n => toString n
  | .str s => s
  | .arr xs => String.intercalate "," (jsArrElems xs)
  | .obj _ => "[object Object]"

def jsArrElems : List JsonV → List String
  | [] => []
  | .undefined :: xs => "" :: jsArrElems xs
  | .null :: xs => "" :: jsArrElems xs
  | x :: xs => jsToString x :: jsArrElems xs
end

def jsonQuoteChar (c : Char) : String :=
  if c = '"' then "\\\""
  else if c = '\\' then "\\\\"
  else if c = '\n' then "\\n"
  else if c = '\t' then "\\t"
  else if c = '\r' then "\\r"
  else String.singleton c

/-- JSON string quoting (control characters below 0x20 other than the
common escapes are abstracted to themselves; no claim depends on them). -/
def jsonQuote (s : String) : String :=
  "\"" ++ String.join (s.data.map jsonQuoteChar) ++ "\""

mutual
/-- `JSON.stringify` (compact form; the two pretty-printing call sites
pass an indent argument whose whitespace no claim depends on).
Returns `none` exactly where JavaScript returns `undefined`, i.e. on a
top-level `undefined`; inside arrays `undefined` serializes as `null`
and object entries with `undefined` values are dropped. -/
def jsonStringify : JsonV → Option String
  | .undefined => none
  | .null => some "null"
  | .bool b => some (if b then "true" else "false")
  | .num n => some (toString n)
  | .str s => some (jsonQuote s)
  | .arr xs => some ("[" ++ String.intercalate "," (jsonStringifyArr xs) ++ "]")
  | .obj fs => some ("\x7b" ++ String.intercalate "," (jsonStringifyObj fs) ++ "\x7d")

def jsonStringifyArr : List JsonV → List String
  | [] => []
  | x :: xs => ((jsonStringify x).getD "null") :: jsonStringifyArr xs

def jsonStringifyObj : List (String × JsonV) → List String
  | [] => []
  | (k, v) :: fs =>
    match jsonStringify v with
    | none => jsonStringifyObj fs
    | some s => (jsonQuote k ++ ":" ++ s) :: jsonStringifyObj fs
end

/-- Rendering of `JSON.stringify(x)` inside a template literal:
a top-level `undefined` result prints as the word "undefined". -/
def stringifyRender (v : JsonV) : String :=
  (jsonStringify v).getD "undefined"

-- ------------------------------------------------------------------
-- Argument validators (src/src/validators.ts, current version)
-- ------------------------------------------------------------------

/-- validators.ts lines 3-5. -/
def isValidCreateCollectionArgs (args : JsonV) : Bool :=
  isObjNonNull args
  && jsTypeof (jsGetOpt args "name") = "string"
  && (jsIsUndefined (jsGetOpt args "description")
      || jsTypeof (jsGetOpt args "description") = "string")

/-- validators.ts lines 7-9. -/
def isValidListCollectionsArgs (args : JsonV) : Bool :=
  isObjNonNull args && decide (jsKeys args = [])

/-- validators.ts lines 13-15. -/
def isValidAddFileToCollectionArgs (args : JsonV) : Bool :=
  isObjNonNull args
  && jsTypeof (jsGetOpt args "collectionId") = "string"
  && jsTypeof (jsGetOpt args "fileId") = "string"

/-- validators.ts lines 17-19. -/
def isValidListFilesInCollectionArgs (args : JsonV) : Bool :=
  isObjNonNull args && jsTypeof (jsGetOpt args "collectionId") = "string"

/-- Per-element check for includeMetadataFilters, validators.ts line 46. -/
def includeFilterOk (f : JsonV) : Bool :=
  isObjNonNull f
  && jsTypeof (jsGetOpt f "field") = "string"
  && jsTypeof (jsGetOpt f "value") = "string"

/-- Per-element check for excludeMetadataFilters, validators.ts lines 54-57. -/
def excludeFilterOk (f : JsonV) : Bool :=
  isObjNonNull f
  && jsTypeof (jsGetOpt f "field") = "string"
  && !(jsIsUndefined (jsGetOpt f "value") && jsIsUndefined (jsGetOpt f "pattern"))
  && (jsIsUndefined (jsGetOpt f "value") || jsTypeof (jsGetOpt f "value") = "string")
  && (jsIsUndefined (jsGetOpt f "pattern") || jsTypeof (jsGetOpt f "pattern") = "string")

/-- validators.ts lines 34-62.  The sequence of early `return false`
statements is rendered as one conjunction; the `includes` test on
searchMode is strict string equality against the three literals. -/
def isValidQueryCollectionArgs (args : JsonV) : Bool :=
  isObjNonNull args
  && jsTypeof (jsGetOpt args "collectionId") = "string"
  && jsTypeof (jsGetOpt args "queryText") = "string"
  && (jsIsUndefined (jsGetOpt args "limit") || jsTypeof (jsGetOpt args "limit") = "number")
  && (jsIsUndefined (jsGetOpt args "searchMode")
      || (match jsGetOpt args "searchMode" with
          | .str s => s = "vector" || s = "keyword" || s = "hybrid"
          | _ => false))
  && (jsIsUndefined (jsGetOpt args "maxDistance")
      || jsTypeof (jsGetOpt args "maxDistance") = "number")
  && (match jsGetOpt args "includeMetadataFilters" with
      | .undefined => true
      | .arr fs => fs.all includeFilterOk
      | _ => false)
  && (match jsGetOpt args "excludeMetadataFilters" with
      | .undefined => true
      | .arr fs => fs.all excludeFilterOk
      | _ => false)

/-- validators.ts lines 65-67. -/
def isValidDeleteFileArgs (args : JsonV) : Bool :=
  isObjNonNull args && jsTypeof (jsGetOpt args "fileId") = "string"

/-- The metadata record check shared by the embed validators
(validators.ts lines 94-105 and 136-147): when present it must be a
non-null non-array object all of whose values are strings. -/
def metadataRecordOk (m : JsonV) : Bool :=
  match m with
  | .undefined => true
  | .obj fields => fields.all (fun kv => jsTypeof kv.2 = "string")
  | _ => false

/-- One item of the embed_texts batch, validators.ts lines 89-106. -/
def textItemOk (item : JsonV) : Bool :=
  isObjNonNull item
  && jsTypeof (jsGetOpt item "text") = "string"
  && metadataRecordOk (jsGetOpt item "metadata")

/-- validators.ts lines 78-108. -/
def isValidEmbedTextsArgs (args : JsonV) : Bool :=
  isObjNonNull args
  && (jsIsUndefined (jsGetOpt args "collectionId")
      || jsTypeof (jsGetOpt args "collectionId") = "string")
  && (match jsGetOpt args "items" with
      | .arr items => items.all textItemOk
      | _ => false)

/-- `String.prototype.trim`, over the ASCII whitespace characters; the
wider JavaScript trim set (unicode spaces) is abstracted, no claim
depends on exotic whitespace. -/
def jsTrim (s : String) : String :=
  String.mk (((s.data.dropWhile Char.isWhitespace).reverse.dropWhile Char.isWhitespace).reverse)

/-- One element of the embed_files sources array, validators.ts
lines 130-134: must be a string that is non-empty after trimming. -/
def sourceElemOk (s : JsonV) : Bool :=
  match s with
  | .str t => jsTrim t != ""
  | _ => false

/-- validators.ts lines 119-149. -/
def isValidEmbedFilesArgs (args : JsonV) : Bool :=
  isObjNonNull args
  && (jsIsUndefined (jsGetOpt args "collectionId")
      || jsTypeof (jsGetOpt args "collectionId") = "string")
  && (match jsGetOpt args "sources" with
      | .arr ss => decide (ss.length ≠ 0) && ss.all sourceElemOk
      | _ => false)
  && metadataRecordOk (jsGetOpt args "metadata")

example : isValidListCollectionsArgs (.obj []) = true := by decide
example : isValidListCollectionsArgs (.arr []) = true := by decide
example : isValidListCollectionsArgs (.obj [("a", .num 1)]) = false := by decide
example : isValidListCollectionsArgs .null = false := by decide
example : isValidEmbedFilesArgs (.obj [("sources", .arr [])]) = false := by decide
example : isValidEmbedFilesArgs (.obj [("sources", .arr [.str "a.txt"])]) = true := by decide
example : isValidEmbedFilesArgs (.obj [("sources", .arr [.str "  "])]) = false := by decide
example : isValidQueryCollectionArgs
    (.obj [("collectionId", .str "c"), ("queryText", .str "q")]) = true := by decide
example : isValidQueryCollectionArgs
    (.obj [("collectionId", .str "c"), ("queryText", .str "q"),
           ("includeMetadataFilters", .arr [.obj [("field", .str "f")]])]) = false := by decide

-- ------------------------------------------------------------------
-- Substring containment (used to state that error messages include
-- status codes and tool names)
-- ------------------------------------------------------------------

def hasPrefixL : List Char → List Char → Bool
  | [], _ => true
  | _ :: _, [] => false
  | p :: ps, c :: cs => p = c && hasPrefixL ps cs

def hasInfixL (pat : List Char) : List Char → Bool
  | [] => hasPrefixL pat []
  | l@(_ :: cs) => hasPrefixL pat l || hasInfixL pat cs

/-- `strContains s pat`: `pat` occurs contiguously inside `s`. -/
def strContains (s pat : String) : Bool :=
  hasInfixL pat.data s.data

theorem hasPrefixL_append_self (p r : List Char) : hasPrefixL p (p ++ r) = true := by
  induction p with
  | nil => rfl
  | cons c cs ih => simp [hasPrefixL, ih]

theorem hasPrefixL_nil (l : List Char) : hasPrefixL [] l = true := by
  cases l <;> rfl

theorem hasInfixL_nil_pat (l : List Char) : hasInfixL [] l = true := by
  cases l <;> simp [hasInfixL, hasPrefixL_nil]

theorem hasInfixL_of_hasPrefixL (p l : List Char) (h : hasPrefixL p l = true) :
    hasInfixL p l = true := by
  cases l with
  | nil => exact h
  | cons c cs => simp [hasInfixL, h]

theorem hasInfixL_prepend (a : List Char) {p s : List Char}
    (h : hasInfixL p s = true) : hasInfixL p (a ++ s) = true := by
  induction a with
  | nil => simpa using h
  | cons c cs ih => simp [hasInfixL, ih]

theorem hasPrefixL_mono {p l : List Char} (t : List Char)
    (h : hasPrefixL p l = true) : hasPrefixL p (l ++ t) = true := by
  induction p generalizing l with
  | nil => exact hasPrefixL_nil _
  | cons c cs ih =>
      cases l with
      | nil => simp [hasPrefixL] at h
      | cons d ds =>
          simp only [hasPrefixL, Bool.and_eq_true] at h
          simp only [List.cons_append, hasPrefixL, Bool.and_eq_true]
          exact ⟨h.1, ih h.2⟩

theorem hasInfixL_mono {p s : List Char} (t : List Char)
    (h : hasInfixL p s = true) : hasInfixL p (s ++ t) = true := by
  induction s with
  | nil =>
      cases p with
      | nil => exact hasInfixL_nil_pat _
      | cons c cs => simp [hasInfixL, hasPrefixL] at h
  | cons c cs ih =>
      simp only [hasInfixL, Bool.or_eq_true] at h
      rcases h with h | h
      · exact hasInfixL_of_hasPrefixL _ _ (by simpa using hasPrefixL_mono t h)
      · simp only [List.cons_append, hasInfixL, Bool.or_eq_true]
        exact Or.inr (ih h)

theorem string_data_append (a b : String) : (a ++ b).data = a.data ++ b.data := by
  cases a; cases b; rfl

/-- The pattern occurs at the front. -/
theorem strContains_here (p r : String) : strContains (p ++ r) p = true := by
  unfold strContains
  rw [string_data_append]
  exact hasInfixL_of_hasPrefixL _ _ (hasPrefixL_append_self _ _)

/-- Containment is preserved by prepending. -/
theorem strContains_prepend (a : String) {s p : String}
    (h : strContains s p = true) : strContains (a ++ s) p = true := by
  unfold strContains at *
  rw [string_data_append]
  exact hasInfixL_prepend _ h

/-- Containment is preserved by appending. -/
theorem strContains_append_right {s p : String} (t : String)
    (h : strContains s p = true) : strContains (s ++ t) p = true := by
  unfold strContains at *
  rw [string_data_append]
  exact hasInfixL_mono _ h

theorem strContains_middle (l p r : String) : strContains (l ++ p ++ r) p = true := by
  rw [String.append_assoc]
  exact strContains_prepend l (strContains_here p r)

-- ------------------------------------------------------------------
-- Non-emptiness helper
-- ------------------------------------------------------------------

theorem append_ne_empty_left {a : String} (b : String) (h : a ≠ "") : a ++ b ≠ "" := by
  intro hc
  apply h
  have hdata : (a ++ b).data = ([] : List Char) := by rw [hc]
  rw [string_data_append] at hdata
  have ha : a.data = [] := (List.append_eq_nil.mp hdata).1
  exact String.ext ha

-- ------------------------------------------------------------------
-- Response formatter (src/src/handlers.ts, formatResponse, lines 11-115)
-- ------------------------------------------------------------------

/-- One entry of the MCP response content array. In JavaScript the `text`
field receives whatever value the formatter computed; the model renders
it with JavaScript string coercion, since the envelope declares and its
consumers read `text` as a string. -/
structure ContentItem where
  type : String
  text : String
deriving Repr, DecidableEq

/-- The MCP tool response envelope. A JavaScript object without the
`isError` property is modelled with `isError := false`. -/
structure Envelope where
  content : List ContentItem
  isError : Bool := false
deriving Repr, DecidableEq

/-- Exception raised by a property read on `null` or `undefined`;
the model only needs that some exception is thrown. -/
def jsReadErr (key : String) : String :=
  "TypeError: cannot read properties of null or undefined (reading " ++ key ++ ")"

/-- `Array.prototype.map` over a callback that can throw: the first
throwing element aborts the whole map. -/
def mapExcept (f : JsonV → Except String String) : List JsonV → Except String (List String)
  | [] => .ok []
  | x :: xs =>
    match f x with
    | .error e => .error e
    | .ok s =>
      match mapExcept f xs with
      | .error e => .error e
      | .ok rest => .ok (s :: rest)

/-- `Array.prototype.map` with element index, same throwing behavior. -/
def mapIdxExcept (f : Nat → JsonV → Except String String) : Nat → List JsonV → Except String (List String)
  | _, [] => .ok []
  | i, x :: xs =>
    match f i x with
    | .error e => .error e
    | .ok s =>
      match mapIdxExcept f (i + 1) xs with
      | .error e => .error e
      | .ok rest => .ok (s :: rest)

/-- The line built for each collection, handlers.ts line 18 and 24:
plain property reads on the element throw when it is null or undefined. -/
def formatColLine (col : JsonV) : Except String String :=
  match col with
  | .undefined => .error (jsReadErr "name")
  | .null => .error (jsReadErr "name")
  | _ => .ok ("- " ++ jsToString (jsGet col "name")
        ++ " (ID: " ++ jsToString (jsGet col "id") ++ ")")

/-- handlers.ts lines 16-28 (case list_collections).  A non-array
`responseData?.data?.collections` is always either falsy or fails the
`Array.isArray` test, so only the array shape enters the branch. -/
def formatListCollections (responseData : JsonV) (dflt : String) : Except String String :=
  match responseData with
  | .arr xs =>
    if 0 < xs.length then
      match mapExcept formatColLine xs with
      | .error e => .error e
      | .ok lines => .ok ("Collections:\n" ++ String.intercalate "\n" lines)
    else .ok "No collections found."
  | _ =>
    match jsGetOpt (jsGetOpt responseData "data") "collections" with
    | .arr ys =>
      if 0 < ys.length then
        match mapExcept formatColLine ys with
        | .error e => .error e
        | .ok lines => .ok ("Collections:\n" ++ String.intercalate "\n" lines)
      else .ok "No collections found."
    | _ => .ok dflt

/-- The line built for each file, handlers.ts line 41. -/
def formatFileLine (file : JsonV) : Except String String :=
  match file with
  | .undefined => .error (jsReadErr "filename")
  | .null => .error (jsReadErr "filename")
  | _ => .ok ("- " ++ jsToString (jsGet file "filename")
        ++ " (ID: " ++ jsToString (jsGet file "id") ++ ")")

/-- handlers.ts lines 38-45 (case list_files_in_collection). -/
def formatListFiles (responseData : JsonV) (dflt : String) : Except String String :=
  match jsGetOpt (jsGetOpt responseData "data") "files" with
  | .arr fs =>
    if 0 < fs.length then
      match mapExcept formatFileLine fs with
      | .error e => .error e
      | .ok lines => .ok ("Files in collection:\n" ++ String.intercalate "\n" lines)
    else .ok "No files found in this collection."
  | _ => .ok dflt

/-- `x?.toFixed(4)`: undefined for a null or undefined receiver, a fixed
decimal string for a number (integers in the model, hence the 4 zero
places), and a thrown TypeError for everything else, which has no
`toFixed` method. -/
def jsToFixedOpt : JsonV → Except String JsonV
  | .undefined => .ok .undefined
  | .null => .ok .undefined
  | .num n => .ok (.str (toString n ++ ".0000"))
  | _ => .error "TypeError: toFixed is not a function"

/-- handlers.ts lines 59-90: the markdown block built for one query
result. -/
def formatQueryResult (i : Nat) (res : JsonV) : Except String String :=
  match res with
  | .undefined => .error (jsReadErr "vector_id")
  | .null => .error (jsReadErr "vector_id")
  | _ =>
    let vRaw := jsGet res "vector_id"
    let vectorId := if jsTruthy vRaw then jsToString vRaw else "N/A"
    match jsToFixedOpt (jsGet res "distance") with
    | .error e => .error e
    | .ok dV =>
      let distance := if jsTruthy dV then jsToString dV else "N/A"
      match jsToFixedOpt (jsGet res "score") with
      | .error e => .error e
      | .ok sV =>
        let score := if jsTruthy sV then jsToString sV else "N/A"
        let mRaw := jsGet res "metadata"
        let metadata := if jsTruthy mRaw then mRaw else .obj []
        let tV := jsGetOpt metadata "chunk_text"
        let text := if jsTruthy tV then jsToString tV else "No text found"
        let keywords := jsGetOpt metadata "excerptKeywords"
        let questions := jsGetOpt metadata "questionsThisExcerptCanAnswer"
        let parts := ["### Result " ++ toString (i + 1),
                      "**Vector ID:** " ++ vectorId,
                      "**Distance:** " ++ distance,
                      "**Score:** " ++ score,
                      "**Text:**\n```\n" ++ text ++ "\n```"]
        let parts := if jsTruthy keywords
          then parts ++ ["**Keywords:**\n" ++ jsToString keywords] else parts
        let parts := if jsTruthy questions
          then parts ++ ["**Questions Answered:**\n" ++ jsToString questions] else parts
        let node := jsGetOpt metadata "arangodb_node"
        let parts := if jsTruthy node
          then parts ++ ["**ArangoDB Node:**\n```json\n" ++ stringifyRender node ++ "\n```"]
          else parts
        let neighbors := jsGetOpt metadata "arangodb_neighbors"
        let parts :=
          match neighbors with
          | .arr ns =>
            if 0 < ns.length
            then parts ++ ["**ArangoDB Neighbors (" ++ toString ns.length
                  ++ "):**\n```json\n" ++ stringifyRender neighbors ++ "\n```"]
            else parts
          | _ => parts
        .ok (String.intercalate "\n\n" parts)

/-- handlers.ts lines 47-95 (case query_collection).  `results[0]` on an
empty array is undefined; the optional chain then yields undefined. -/
def formatQueryCollection (responseData : JsonV) (dflt : String) : Except String String :=
  match responseData with
  | .arr results =>
    let synthesized := jsGetOpt (results.headD .undefined) "synthesized_answer"
    if 0 < results.length then
      let header := if jsTruthy synthesized
        then "**Synthesized Answer:**\n" ++ jsToString synthesized
              ++ "\n\n---\n\n**Supporting Results:**\n"
        else "Query Results:\n"
      match mapIdxExcept formatQueryResult 0 results with
      | .error e => .error e
      | .ok parts => .ok (header ++ String.intercalate "\n\n---\n\n" parts)
    else .ok "No relevant results found for the query in this collection."
  | _ => .ok dflt

/-- The body of the `switch` inside formatResponse: the branch value, or
the exception the branch would throw.  The default summary (declared
before the try block, handlers.ts line 12) is the result for
unrecognized tool names and for the case arms that leave `summary`
untouched. -/
def formatSummary (toolName : String) (responseData : JsonV) : Except String String :=
  let dflt := "Tool \x27" ++ toolName ++ "\x27 executed successfully."
  if toolName = "list_collections" then
    formatListCollections responseData dflt
  else if toolName = "create_collection" then
    .ok (if jsTruthy (jsGetOpt responseData "id") && jsTruthy (jsGetOpt responseData "name")
      then "Created collection \"" ++ jsToString (jsGetOpt responseData "name")
            ++ "\" (ID: " ++ jsToString (jsGetOpt responseData "id") ++ ")."
      else dflt)
  else if toolName = "add_file_to_collection" then
    .ok (let m := jsGetOpt responseData "message"
         if jsTruthy m then jsToString m else "File successfully added to collection.")
  else if toolName = "list_files_in_collection" then
    formatListFiles responseData dflt
  else if toolName = "query_collection" then
    formatQueryCollection responseData dflt
  else if toolName = "delete_file" then
    .ok "File deleted successfully."
  else if toolName = "get_arangodb_node" then
    .ok (let d := jsGetOpt responseData "data"
         if jsTruthy d
         then "ArangoDB Node Data:\n```json\n" ++ stringifyRender d ++ "\n```"
         else "Could not retrieve data for the specified ArangoDB node. Response: "
               ++ stringifyRender responseData)
  else .ok dflt

/-- The fallback summary built in the catch block, handlers.ts line 111. -/
def fallbackSummary (toolName : String) (responseData : JsonV) : String :=
  "Tool \x27" ++ toolName
    ++ "\x27 executed, but response formatting failed. Raw data: "
    ++ stringifyRender responseData

/-- handlers.ts lines 11-115: the whole formatter with its try/catch.
Total by construction, exactly as the catch-all makes the source. -/
def formatResponse (toolName : String) (responseData : JsonV) : Envelope :=
  let summary :=
    match formatSummary toolName responseData with
    | .ok s => s
    | .error _ => fallbackSummary toolName responseData
  { content := [{ type := "text", text := summary }], isError := false }

/-- The text shown to the caller. -/
def envelopeText (e : Envelope) : String :=
  (e.content.headD { type := "text", text := "" }).text

example : envelopeText (formatResponse "list_collections" (.arr [])) = "No collections found." := by decide
example : envelopeText (formatResponse "create_collection"
    (.obj [("id", .str "c1"), ("name", .str "Docs")]))
    = "Created collection \"Docs\" (ID: c1)." := by decide
example : envelopeText (formatResponse "add_file_to_collection" (.obj [("message", .arr [])])) = "" := by decide
example : envelopeText (formatResponse "query_collection"
    (.arr [.obj [("distance", .str "oops")]]))
    = fallbackSummary "query_collection" (.arr [.obj [("distance", .str "oops")]]) := by decide

-- ------------------------------------------------------------------
-- Error messages and single-call dispatcher
-- (src/src/handlers.ts, handleApiCall lines 120-209 and
--  handleEmbedFileContent lines 433-438; @modelcontextprotocol/sdk
--  McpError formats its message as "MCP error <code>: <message>")
-- ------------------------------------------------------------------

/-- The message carried by a thrown `McpError(code, message)`. -/
def mcpErrorMessage (code : Int) (message : String) : String :=
  "MCP error " ++ toString code ++ ": " ++ message

/-- The `ErrorCode` constants used by the server. -/
def errInvalidParams : Int := -32602
def errInternal : Int := -32603
def errMethodNotFound : Int := -32601

/-- handlers.ts lines 154-170: the detailed message composed by
handleApiCall for a response with status >= 400.  The status line is
always the prefix; a truthy body `message` is appended after a dash; the
serialized body is appended when it serializes and is short enough
(JSON.stringify of undefined makes the length access throw, which the
inner try swallows). -/
def apiCallErrorMessage (status : Nat) (statusText : String) (errorData : JsonV) : String :=
  let base := "API Error: " ++ toString status ++ " " ++ statusText
  let detailed :=
    if jsTruthy (jsGetOpt errorData "message")
    then base ++ " - " ++ jsToString (jsGetOpt errorData "message")
    else base
  match jsonStringify errorData with
  | some s => if s.length < 500 then detailed ++ " | Details: " ++ s else detailed
  | none => detailed

/-- handlers.ts line 435: the message composed by handleEmbedFileContent
for an upload response with status >= 400.  A truthy body `message`
replaces the status line entirely. -/
def embedFileContentErrorMessage (status : Nat) (statusText : String) (errorData : JsonV) : String :=
  if jsTruthy (jsGetOpt errorData "message")
  then jsToString (jsGetOpt errorData "message")
  else "API Error: " ++ toString status ++ " " ++ statusText

/-- handlers.ts lines 185-207: the message composed for a transport-level
failure (the promise rejected; with validateStatus this is a network
error or a status >= 500).  `respData` is `error.response?.data` when a
partial response was captured. -/
def axiosErrorMessage (message : String) (respData : Option JsonV) : String :=
  match respData with
  | none => message
  | some d =>
    let base :=
      if jsTruthy (jsGetOpt d "message")
      then message ++ ": " ++ jsToString (jsGetOpt d "message")
      else message
    match jsonStringify d with
    | some s => if s.length < 500 then base ++ " | Details: " ++ s else base
    | none => base

/-- What the HTTP client hands back for one outbound call: either a
resolved response (with validateStatus, any status in 200..499) or a
rejected promise carrying an error message and possibly captured
response data. -/
inductive HttpResult where
  | resp (status : Nat) (statusText : String) (data : JsonV)
  | netError (message : String) (respData : Option JsonV)

inductive HttpMethod where
  | get | post | put | delete
deriving Repr, DecidableEq

/-- One outbound HTTP request, as far as the claims observe it. -/
structure HttpReq where
  endpoint : String
  method : HttpMethod
deriving Repr, DecidableEq

/-- handlers.ts lines 120-209, handleApiCall, with the single outbound
call's outcome supplied by `result`.  The payload reshaping for
query_collection (lines 132-147) only changes what is sent, not how the
response is handled, and is not modelled.  `.error` is a thrown
McpError; the catch block rethrows McpErrors unchanged and wraps
everything else. -/
def handleApiCall (result : HttpResult) (endpoint : String) (method : HttpMethod)
    (toolName : String) (data : JsonV) : Except String Envelope :=
  match result with
  | .resp status statusText body =>
    if 400 ≤ status then
      .error (mcpErrorMessage errInternal (apiCallErrorMessage status statusText body))
    else if method = .delete && status = 204 then
      .ok (formatResponse toolName .null)
    else
      .ok (formatResponse toolName body)
  | .netError message respData =>
    .error (mcpErrorMessage errInternal (axiosErrorMessage message respData))

example :
    handleApiCall (.resp 404 "Not Found" .null) "/collections" .get "list_collections" .undefined
    = .error "MCP error -32603: API Error: 404 Not Found | Details: null" := by rfl
example :
    handleApiCall (.resp 204 "No Content" .null) "/files/f1" .delete "delete_file" .undefined
    = .ok (formatResponse "delete_file" .null) := by rfl

-- ------------------------------------------------------------------
-- File-ID extraction (handlers.ts lines 242-247 and 321-327):
-- result.content[0].text.match of the pattern "File ID: " followed by
-- one or more characters from the class a-f, 0-9, dash
-- ------------------------------------------------------------------

def isFileIdChar (c : Char) : Bool :=
  ('a' ≤ c && c ≤ 'f') || ('0' ≤ c && c ≤ '9') || c = '-'

def fileIdMarker : List Char := "File ID: ".data

/-- First-match semantics of the regular expression: at each start
position the literal marker must match and at least one class character
must follow; otherwise the scan moves one character right. -/
def findFileId : List Char → Option String
  | [] => none
  | l@(_ :: rest) =>
    if hasPrefixL fileIdMarker l then
      let cap := (l.drop fileIdMarker.length).takeWhile isFileIdChar
      if cap.isEmpty then findFileId rest else some (String.mk cap)
    else findFileId rest

def extractFileId (text : String) : Option String :=
  findFileId text.data

example : extractFileId "Successfully uploaded. File ID: ab3-9f" = some "ab3-9f" := by decide
example : extractFileId "File ID: File ID: abc" = some "abc" := by decide
example : extractFileId "nothing here" = none := by decide

-- ------------------------------------------------------------------
-- Batch ingestion orchestrators
-- (src/src/handlers.ts, handleEmbedTexts lines 213-273 and
--  handleEmbedFiles lines 277-363)
-- ------------------------------------------------------------------

/-- JavaScript `a || b` on an optional string (a missing property is
`none`): the fallback is taken when the value is absent or empty. -/
def jsStrOr (o : Option String) (d : String) : String :=
  match o with
  | none => d
  | some s => if s = "" then d else s

/-- Truthiness of an optional string field such as `r.error` or
`r.fileId`: absent and empty strings are falsy. -/
def jsTruthyOptStr (o : Option String) : Bool :=
  match o with
  | none => false
  | some s => s != ""

/-- One item of the embed_texts batch, as typed by its validator. -/
structure TextItem where
  text : String
  metadata : Option (List (String × String))

def TextItem.metaGet (item : TextItem) (key : String) : Option String :=
  match item.metadata with
  | none => none
  | some md => md.lookup key

/-- handlers.ts line 228: the per-item source description, preferring
metadata source_url, then file_path, else a positional label (the
results array has exactly `i` entries when item `i` starts). -/
def textSourceDesc (item : TextItem) (i : Nat) : String :=
  jsStrOr (item.metaGet "source_url")
    (jsStrOr (item.metaGet "file_path") ("text item " ++ toString (i + 1)))

/-- One recorded result of the embed_texts loop (handlers.ts line 219). -/
structure TextResult where
  fileId : Option String
  sourceDesc : String
  error : Option String
deriving Repr, DecidableEq

/-- The observable steps of a batch run, in the order they happen. -/
inductive BatchEvent where
  | readCall (i : Nat)
  | uploadCall (i : Nat)
  | record (i : Nat)
deriving Repr, DecidableEq

structure TextsState where
  results : List TextResult
  successCount : Nat
  errorCount : Nat
  events : List BatchEvent

/-- The body of the `for` loop of handleEmbedTexts (lines 225-261).
`upload i` is the outcome of the i-th call to handleEmbedFileContent:
the text of its success envelope, or the message of what it threw.  The
match is the try/catch of the source: every thrown error is caught and
recorded, the loop continues. -/
def embedTextsStep (upload : Nat → Except String String) (st : TextsState)
    (item : TextItem) : TextsState :=
  let i := st.results.length
  let sourceDesc := textSourceDesc item i
  match upload i with
  | .ok text =>
    { results := st.results ++ [{ fileId := extractFileId text, sourceDesc := sourceDesc, error := none }],
      successCount := st.successCount + 1,
      errorCount := st.errorCount,
      events := st.events ++ [.uploadCall i, .record i] }
  | .error message =>
    { results := st.results ++ [{ fileId := none, sourceDesc := sourceDesc, error := some message }],
      successCount := st.successCount,
      errorCount := st.errorCount + 1,
      events := st.events ++ [.uploadCall i, .record i] }

def embedTextsLoop (upload : Nat → Except String String) (st : TextsState) :
    List TextItem → TextsState
  | [] => st
  | item :: rest => embedTextsLoop upload (embedTextsStep upload st item) rest

def embedTextsRun (upload : Nat → Except String String) (items : List TextItem) : TextsState :=
  embedTextsLoop upload { results := [], successCount := 0, errorCount := 0, events := [] } items

/-- handlers.ts lines 264-270: the aggregate summary text. -/
def textsSummary (st : TextsState) : String :=
  let base := "Batch embed completed. " ++ toString st.successCount
    ++ " items succeeded, " ++ toString st.errorCount ++ " items failed."
  let withIds :=
    if 0 < st.successCount then
      base ++ "\nSuccessful File IDs: "
        ++ String.intercalate ", "
            ((st.results.filter (fun r => jsTruthyOptStr r.fileId)).map (fun r => r.fileId.getD ""))
    else base
  if 0 < st.errorCount then
    withIds ++ "\nFailed items: "
      ++ String.intercalate ", "
          ((st.results.filter (fun r => jsTruthyOptStr r.error)).map
            (fun r => r.sourceDesc ++ " (" ++ (r.error.getD "") ++ ")"))
  else withIds

/-- handlers.ts lines 213-273. -/
def handleEmbedTexts (upload : Nat → Except String String) (items : List TextItem) : Envelope :=
  { content := [{ type := "text", text := textsSummary (embedTextsRun upload items) }],
    isError := false }

/-- One recorded result of the embed_files loop (handlers.ts line 284). -/
structure FileResult where
  fileId : Option String
  source : String
  error : Option String
deriving Repr, DecidableEq

structure FilesState where
  results : List FileResult
  events : List BatchEvent

/-- The body of the `for` loop of handleEmbedFiles (lines 290-347).
`readF i` is the outcome of the fs.readFile call for source i (content
or error message), `upload i` the outcome of the handleEmbedFileContent
call when the read succeeded.  A failed read records the error and skips
the upload; a failed upload records the thrown message; both catches
swallow the error and the loop continues. -/
def embedFilesStep (readF upload : Nat → Except String String) (st : FilesState)
    (source : String) : FilesState :=
  let i := st.results.length
  match readF i with
  | .ok _content =>
    match upload i with
    | .ok text =>
      { results := st.results ++ [{ fileId := extractFileId text, source := source, error := none }],
        events := st.events ++ [.readCall i, .uploadCall i, .record i] }
    | .error message =>
      { results := st.results ++ [{ fileId := none, source := source, error := some message }],
        events := st.events ++ [.readCall i, .uploadCall i, .record i] }
  | .error readMsg =>
    -- line 302: the recorded message; line 343 falls back to a fixed
    -- string when it is falsy, which the template prefix prevents
    let errorMsg := "Failed to read file \"" ++ source ++ "\": " ++ readMsg
    { results := st.results ++
        [{ fileId := none, source := source,
           error := some (if errorMsg = "" then "Failed to read file content" else errorMsg) }],
      events := st.events ++ [.readCall i, .record i] }

def embedFilesLoop (readF upload : Nat → Except String String) (st : FilesState) :
    List String → FilesState
  | [] => st
  | source :: rest => embedFilesLoop readF upload (embedFilesStep readF upload st source) rest

def embedFilesRun (readF upload : Nat → Except String String) (sources : List String) : FilesState :=
  embedFilesLoop readF upload { results := [], events := [] } sources

/-- handlers.ts line 350: success count recomputed from the final result
list as the entries without a truthy error. -/
def filesSuccessCount (st : FilesState) : Nat :=
  (st.results.filter (fun r => !(jsTruthyOptStr r.error))).length

/-- handlers.ts line 351. -/
def filesErrorCount (st : FilesState) : Nat :=
  (st.results.filter (fun r => jsTruthyOptStr r.error)).length

/-- handlers.ts lines 354-360. -/
def filesSummary (st : FilesState) : String :=
  let base := "Batch embed files completed. " ++ toString (filesSuccessCount st)
    ++ " sources succeeded, " ++ toString (filesErrorCount st) ++ " sources failed."
  let withIds :=
    if 0 < filesSuccessCount st then
      base ++ "\nSuccessful File IDs: "
        ++ String.intercalate ", "
            ((st.results.filter (fun r => jsTruthyOptStr r.fileId)).map (fun r => r.fileId.getD ""))
    else base
  if 0 < filesErrorCount st then
    withIds ++ "\nFailed sources: "
      ++ String.intercalate ", "
          ((st.results.filter (fun r => jsTruthyOptStr r.error)).map
            (fun r => r.source ++ " (" ++ (r.error.getD "") ++ ")"))
  else withIds

/-- handlers.ts lines 277-363. -/
def handleEmbedFiles (readF upload : Nat → Except String String) (sources : List String) : Envelope :=
  { content := [{ type := "text", text := filesSummary (embedFilesRun readF upload sources) }],
    isError := false }

-- ------------------------------------------------------------------
-- Request router (src/src/server.ts, setupToolHandlers lines 84-163)
-- ------------------------------------------------------------------

/-- The per-request environment: the outcome of the single dispatch call
and, for the batch tools, the outcomes of the per-item file reads and
uploads. -/
structure Oracle where
  http : HttpResult
  readFile : Nat → Except String String
  upload : Nat → Except String String

/-- Decoding of a validated metadata record into the typed shape the
handlers receive (all values are strings once the validator passed). -/
def decodeMetadata : JsonV → Option (List (String × String))
  | .obj fields => some (fields.filterMap (fun kv =>
      match kv.2 with
      | .str s => some (kv.1, s)
      | _ => none))
  | _ => none

/-- Decoding of validated embed_texts items. -/
def decodeTextItems : JsonV → List TextItem
  | .arr items => items.map (fun it =>
      { text := match jsGetOpt it "text" with | .str s => s | _ => "",
        metadata := decodeMetadata (jsGetOpt it "metadata") })
  | _ => []

/-- Decoding of validated embed_files sources. -/
def decodeSources : JsonV → List String
  | .arr ss => ss.map (fun s => match s with | .str t => t | _ => "")
  | _ => []

def decodeStr (v : JsonV) : String :=
  match v with
  | .str s => s
  | _ => ""

/-- What one routing decision produced: the value returned to the outer
catch (or the message it threw), and the outbound HTTP requests the
chosen branch issues. -/
structure RouteOutcome where
  result : Except String Envelope
  requests : List HttpReq

/-- The `switch (name)` of the call-tool handler, server.ts lines
89-153.  Each branch first runs its validator and throws
`McpError(InvalidParams, ...)` without any network call when it fails;
otherwise it dispatches.  The uploads of embed_texts happen once per
item; those of embed_files once per successfully read source. -/
def routeToolCall (name : String) (args : JsonV) (oc : Oracle) : RouteOutcome :=
  if name = "create_collection" then
    if isValidCreateCollectionArgs args then
      { result := handleApiCall oc.http "/collections" .post name args,
        requests := [{ endpoint := "/collections", method := .post }] }
    else
      { result := .error (mcpErrorMessage errInvalidParams "Invalid arguments for create_collection"),
        requests := [] }
  else if name = "list_collections" then
    if isValidListCollectionsArgs args then
      { result := handleApiCall oc.http "/collections" .get name .undefined,
        requests := [{ endpoint := "/collections", method := .get }] }
    else
      { result := .error (mcpErrorMessage errInvalidParams "Invalid arguments for list_collections"),
        requests := [] }
  else if name = "embed_texts" then
    if isValidEmbedTextsArgs args then
      let items := decodeTextItems (jsGetOpt args "items")
      { result := .ok (handleEmbedTexts oc.upload items),
        requests := List.replicate items.length { endpoint := "/files/upload", method := .post } }
    else
      { result := .error (mcpErrorMessage errInvalidParams "Invalid arguments for embed_texts"),
        requests := [] }
  else if name = "embed_files" then
    if isValidEmbedFilesArgs args then
      let sources := decodeSources (jsGetOpt args "sources")
      { result := .ok (handleEmbedFiles oc.readFile oc.upload sources),
        requests := (List.range sources.length).filterMap (fun i =>
          match oc.readFile i with
          | .ok _ => some { endpoint := "/files/upload", method := .post }
          | .error _ => none) }
    else
      { result := .error (mcpErrorMessage errInvalidParams "Invalid arguments for embed_files"),
        requests := [] }
  else if name = "add_file_to_collection" then
    if isValidAddFileToCollectionArgs args then
      let endpoint := "/collections/" ++ decodeStr (jsGetOpt args "collectionId") ++ "/files"
      { result := handleApiCall oc.http endpoint .post name (.obj [("fileId", jsGetOpt args "fileId")]),
        requests := [{ endpoint := endpoint, method := .post }] }
    else
      { result := .error (mcpErrorMessage errInvalidParams "Invalid arguments for add_file_to_collection"),
        requests := [] }
  else if name = "list_files_in_collection" then
    if isValidListFilesInCollectionArgs args then
      let endpoint := "/collections/" ++ decodeStr (jsGetOpt args "collectionId") ++ "/files"
      { result := handleApiCall oc.http endpoint .get name .undefined,
        requests := [{ endpoint := endpoint, method := .get }] }
    else
      { result := .error (mcpErrorMessage errInvalidParams "Invalid arguments for list_files_in_collection"),
        requests := [] }
  else if name = "query_collection" then
    if isValidQueryCollectionArgs args then
      -- the payload assembled on lines 127-141 is forwarded as data
      { result := handleApiCall oc.http "/query" .post name args,
        requests := [{ endpoint := "/query", method := .post }] }
    else
      { result := .error (mcpErrorMessage errInvalidParams "Invalid arguments for query_collection"),
        requests := [] }
  else if name = "delete_file" then
    if isValidDeleteFileArgs args then
      let endpoint := "/files/" ++ decodeStr (jsGetOpt args "fileId")
      { result := handleApiCall oc.http endpoint .delete name .undefined,
        requests := [{ endpoint := endpoint, method := .delete }] }
    else
      { result := .error (mcpErrorMessage errInvalidParams "Invalid arguments for delete_file"),
        requests := [] }
  else
    { result := .error (mcpErrorMessage errMethodNotFound ("Unknown tool: " ++ name)),
      requests := [] }

/-- The catch at the router boundary, server.ts lines 154-162: any
thrown error becomes a normal envelope with isError true and the
message prefixed with "Error: ". -/
def callToolRequest (name : String) (args : JsonV) (oc : Oracle) : Envelope :=
  match (routeToolCall name args oc).result with
  | .ok env => env
  | .error message =>
    { content := [{ type := "text", text := "Error: " ++ message }], isError := true }

/-- The tools the current router dispatches, in switch order. -/
def knownToolNames : List String :=
  ["create_collection", "list_collections", "embed_texts", "embed_files",
   "add_file_to_collection", "list_files_in_collection", "query_collection",
   "delete_file"]

/-- The validator each known tool's branch runs. -/
def validatorFor (name : String) : JsonV → Bool :=
  if name = "create_collection" then isValidCreateCollectionArgs
  else if name = "list_collections" then isValidListCollectionsArgs
  else if name = "embed_texts" then isValidEmbedTextsArgs
  else if name = "embed_files" then isValidEmbedFilesArgs
  else if name = "add_file_to_collection" then isValidAddFileToCollectionArgs
  else if name = "list_files_in_collection" then isValidListFilesInCollectionArgs
  else if name = "query_collection" then isValidQueryCollectionArgs
  else if name = "delete_file" then isValidDeleteFileArgs
  else fun _ => false

/-- A fixed benign oracle for concrete examples. -/
def oracle0 : Oracle :=
  { http := .resp 200 "OK" .null,
    readFile := fun _ => .ok "content",
    upload := fun _ => .ok "uploaded" }

example :
    callToolRequest "list_collections" (.num 5) oracle0
    = { content := [{ type := "text", text := "Error: MCP error -32602: Invalid arguments for list_collections" }], isError := true } := by rfl
example :
    callToolRequest "no_such_tool" (.obj []) oracle0
    = { content := [{ type := "text", text := "Error: MCP error -32601: Unknown tool: no_such_tool" }], isError := true } := by rfl

-- ------------------------------------------------------------------
-- Batch loop characterizations
-- ------------------------------------------------------------------

theorem length_filter_partition {α : Type} (p : α → Bool) (l : List α) :
    (l.filter p).length + (l.filter (fun a => !(p a))).length = l.length := by
  induction l with
  | nil => rfl
  | cons a t ih => cases h : p a <;> simp [List.filter_cons, h] <;> omega

/-- The result the embed_texts loop records for item `i`. -/
def textResultFor (upload : Nat → Except String String) (i : Nat) (item : TextItem) : TextResult :=
  match upload i with
  | .ok text => { fileId := extractFileId text, sourceDesc := textSourceDesc item i, error := none }
  | .error message => { fileId := none, sourceDesc := textSourceDesc item i, error := some message }

def textResultsFrom (upload : Nat → Except String String) (k : Nat) :
    List TextItem → List TextResult
  | [] => []
  | item :: rest => textResultFor upload k item :: textResultsFrom upload (k + 1) rest

def textDescsFrom (k : Nat) : List TextItem → List String
  | [] => []
  | item :: rest => textSourceDesc item k :: textDescsFrom (k + 1) rest

/-- The event trace of the embed_texts loop over `n` items starting at
index `k`: each item's upload call, then its result record, before the
next item starts. -/
def textEventsFrom : Nat → Nat → List BatchEvent
  | _, 0 => []
  | k, n + 1 => [.uploadCall k, .record k] ++ textEventsFrom (k + 1) n

theorem embedTextsStep_results (u : Nat → Except String String) (st : TextsState) (item : TextItem) :
    (embedTextsStep u st item).results
      = st.results ++ [textResultFor u st.results.length item] := by
  cases h : u st.results.length <;> simp [embedTextsStep, textResultFor, h]

theorem embedTextsStep_events (u : Nat → Except String String) (st : TextsState) (item : TextItem) :
    (embedTextsStep u st item).events
      = st.events ++ [.uploadCall st.results.length, .record st.results.length] := by
  cases h : u st.results.length <;> simp [embedTextsStep, h]

theorem embedTextsStep_length (u : Nat → Except String String) (st : TextsState) (item : TextItem) :
    (embedTextsStep u st item).results.length = st.results.length + 1 := by
  rw [embedTextsStep_results]; simp

theorem embedTextsLoop_results (u : Nat → Except String String) (l : List TextItem) :
    ∀ st : TextsState,
    (embedTextsLoop u st l).results = st.results ++ textResultsFrom u st.results.length l := by
  induction l with
  | nil => intro st; simp [embedTextsLoop, textResultsFrom]
  | cons item rest ih =>
      intro st
      simp only [embedTextsLoop]
      rw [ih, embedTextsStep_results]
      simp [textResultsFrom, List.append_assoc]

theorem embedTextsLoop_events (u : Nat → Except String String) (l : List TextItem) :
    ∀ st : TextsState,
    (embedTextsLoop u st l).events = st.events ++ textEventsFrom st.results.length l.length := by
  induction l with
  | nil => intro st; simp [embedTextsLoop, textEventsFrom]
  | cons item rest ih =>
      intro st
      simp only [embedTextsLoop]
      rw [ih, embedTextsStep_events, embedTextsStep_results]
      simp [textEventsFrom, List.length_cons, List.append_assoc]

theorem embedTextsLoop_counts (u : Nat → Except String String) (l : List TextItem) :
    ∀ st : TextsState,
    (embedTextsLoop u st l).successCount + (embedTextsLoop u st l).errorCount
      = st.successCount + st.errorCount + l.length := by
  induction l with
  | nil => intro st; simp [embedTextsLoop]
  | cons item rest ih =>
      intro st
      simp only [embedTextsLoop]
      rw [ih]
      cases h : u st.results.length <;> simp [embedTextsStep, h] <;> omega

theorem embedTextsLoop_succInv (u : Nat → Except String String) (l : List TextItem) :
    ∀ st : TextsState,
    st.successCount = st.results.countP (fun r => r.error.isNone) →
    (embedTextsLoop u st l).successCount
      = (embedTextsLoop u st l).results.countP (fun r => r.error.isNone) := by
  induction l with
  | nil => intro st h; simpa [embedTextsLoop] using h
  | cons item rest ih =>
      intro st h
      simp only [embedTextsLoop]
      apply ih
      cases hu : u st.results.length <;>
        simp [embedTextsStep, hu, List.countP_append, List.countP_cons, h]

theorem embedTextsLoop_errInv (u : Nat → Except String String) (l : List TextItem) :
    ∀ st : TextsState,
    st.errorCount = st.results.countP (fun r => r.error.isSome) →
    (embedTextsLoop u st l).errorCount
      = (embedTextsLoop u st l).results.countP (fun r => r.error.isSome) := by
  induction l with
  | nil => intro st h; simpa [embedTextsLoop] using h
  | cons item rest ih =>
      intro st h
      simp only [embedTextsLoop]
      apply ih
      cases hu : u st.results.length <;>
        simp [embedTextsStep, hu, List.countP_append, List.countP_cons, h]

theorem textResultsFrom_length (u : Nat → Except String String) (l : List TextItem) :
    ∀ k, (textResultsFrom u k l).length = l.length := by
  induction l with
  | nil => intro k; rfl
  | cons item rest ih => intro k; simp [textResultsFrom, ih]

theorem textResultsFrom_map_desc (u : Nat → Except String String) (l : List TextItem) :
    ∀ k, (textResultsFrom u k l).map (fun r => r.sourceDesc) = textDescsFrom k l := by
  induction l with
  | nil => intro k; rfl
  | cons item rest ih =>
      intro k
      have hdesc : (textResultFor u k item).sourceDesc = textSourceDesc item k := by
        cases h : u k <;> simp [textResultFor, h]
      simp [textResultsFrom, textDescsFrom, ih, hdesc]

/-- The result the embed_files loop records for source `i`. -/
def fileResultFor (readF upload : Nat → Except String String) (i : Nat) (source : String) :
    FileResult :=
  match readF i with
  | .ok _ =>
    match upload i with
    | .ok text => { fileId := extractFileId text, source := source, error := none }
    | .error message => { fileId := none, source := source, error := some message }
  | .error readMsg =>
    let errorMsg := "Failed to read file \"" ++ source ++ "\": " ++ readMsg
    { fileId := none, source := source,
      error := some (if errorMsg = "" then "Failed to read file content" else errorMsg) }

def fileResultsFrom (readF upload : Nat → Except String String) (k : Nat) :
    List String → List FileResult
  | [] => []
  | source :: rest => fileResultFor readF upload k source :: fileResultsFrom readF upload (k + 1) rest

/-- The event trace of the embed_files loop: each source's read, its
upload when the read succeeded, then its record, before the next
source starts. -/
def fileEventsFrom (readF : Nat → Except String String) : Nat → Nat → List BatchEvent
  | _, 0 => []
  | k, n + 1 =>
    (match readF k with
     | .ok _ => [.readCall k, .uploadCall k, .record k]
     | .error _ => [.readCall k, .record k]) ++ fileEventsFrom readF (k + 1) n

theorem embedFilesStep_results (readF u : Nat → Except String String) (st : FilesState)
    (source : String) :
    (embedFilesStep readF u st source).results
      = st.results ++ [fileResultFor readF u st.results.length source] := by
  cases hr : readF st.results.length
  case ok c =>
    cases hu : u st.results.length <;> simp [embedFilesStep, fileResultFor, hr, hu]
  case error m => simp [embedFilesStep, fileResultFor, hr]

theorem embedFilesStep_events (readF u : Nat → Except String String) (st : FilesState)
    (source : String) :
    (embedFilesStep readF u st source).events
      = st.events ++
        (match readF st.results.length with
         | .ok _ => [.readCall st.results.length, .uploadCall st.results.length, .record st.results.length]
         | .error _ => [.readCall st.results.length, .record st.results.length]) := by
  cases hr : readF st.results.length
  case ok c =>
    cases hu : u st.results.length <;> simp [embedFilesStep, hr, hu]
  case error m => simp [embedFilesStep, hr]

theorem embedFilesStep_length (readF u : Nat → Except String String) (st : FilesState)
    (source : String) :
    (embedFilesStep readF u st source).results.length = st.results.length + 1 := by
  rw [embedFilesStep_results]; simp

theorem embedFilesLoop_results (readF u : Nat → Except String String) (l : List String) :
    ∀ st : FilesState,
    (embedFilesLoop readF u st l).results
      = st.results ++ fileResultsFrom readF u st.results.length l := by
  induction l with
  | nil => intro st; simp [embedFilesLoop, fileResultsFrom]
  | cons source rest ih =>
      intro st
      simp only [embedFilesLoop]
      rw [ih, embedFilesStep_results]
      simp [fileResultsFrom, List.append_assoc]

theorem embedFilesLoop_events (readF u : Nat → Except String String) (l : List String) :
    ∀ st : FilesState,
    (embedFilesLoop readF u st l).events
      = st.events ++ fileEventsFrom readF st.results.length l.length := by
  induction l with
  | nil => intro st; simp [embedFilesLoop, fileEventsFrom]
  | cons source rest ih =>
      intro st
      simp only [embedFilesLoop]
      rw [ih, embedFilesStep_events, embedFilesStep_results]
      simp [fileEventsFrom, List.length_cons, List.append_assoc]

theorem fileResultsFrom_length (readF u : Nat → Except String String) (l : List String) :
    ∀ k, (fileResultsFrom readF u k l).length = l.length := by
  induction l with
  | nil => intro k; rfl
  | cons source rest ih => intro k; simp [fileResultsFrom, ih]

theorem fileResultsFrom_map_source (readF u : Nat → Except String String) (l : List String) :
    ∀ k, (fileResultsFrom readF u k l).map (fun r => r.source) = l := by
  induction l with
  | nil => intro k; rfl
  | cons source rest ih =>
      intro k
      have hsrc : (fileResultFor readF u k source).source = source := by
        cases hr : readF k
        case ok c => cases hu : u k <;> simp [fileResultFor, hr, hu]
        case error m => simp [fileResultFor, hr]
      simp [fileResultsFrom, ih, hsrc]

theorem hasPrefixL_refl (p : List Char) : hasPrefixL p p = true := by
  simpa using hasPrefixL_append_self p []

theorem strContains_end (a p : String) : strContains (a ++ p) p = true := by
  unfold strContains
  rw [string_data_append]
  exact hasInfixL_prepend _ (hasInfixL_of_hasPrefixL _ _ (hasPrefixL_refl _))

theorem textsSummary_contains_succ (st : TextsState) :
    strContains (textsSummary st) (toString st.successCount) = true := by
  have h1 : strContains ("Batch embed completed. " ++ toString st.successCount
      ++ " items succeeded, " ++ toString st.errorCount ++ " items failed.")
      (toString st.successCount) = true :=
    strContains_append_right _ (strContains_append_right _
      (strContains_append_right _ (strContains_end _ _)))
  simp only [textsSummary]
  split <;> split <;>
    repeat (first | exact h1 | apply strContains_append_right)

theorem textsSummary_contains_err (st : TextsState) :
    strContains (textsSummary st) (toString st.errorCount) = true := by
  have h1 : strContains ("Batch embed completed. " ++ toString st.successCount
      ++ " items succeeded, " ++ toString st.errorCount ++ " items failed.")
      (toString st.errorCount) = true :=
    strContains_append_right _ (strContains_end _ _)
  simp only [textsSummary]
  split <;> split <;>
    repeat (first | exact h1 | apply strContains_append_right)

theorem filesSummary_contains_succ (st : FilesState) :
    strContains (filesSummary st) (toString (filesSuccessCount st)) = true := by
  have h1 : strContains ("Batch embed files completed. " ++ toString (filesSuccessCount st)
      ++ " sources succeeded, " ++ toString (filesErrorCount st) ++ " sources failed.")
      (toString (filesSuccessCount st)) = true :=
    strContains_append_right _ (strContains_append_right _
      (strContains_append_right _ (strContains_end _ _)))
  simp only [filesSummary]
  split <;> split <;>
    repeat (first | exact h1 | apply strContains_append_right)

theorem filesSummary_contains_err (st : FilesState) :
    strContains (filesSummary st) (toString (filesErrorCount st)) = true := by
  have h1 : strContains ("Batch embed files completed. " ++ toString (filesSuccessCount st)
      ++ " sources succeeded, " ++ toString (filesErrorCount st) ++ " sources failed.")
      (toString (filesErrorCount st)) = true :=
    strContains_append_right _ (strContains_end _ _)
  simp only [filesSummary]
  split <;> split <;>
    repeat (first | exact h1 | apply strContains_append_right)

/-- Claim C1: for every run of a batch embedding handler over N items,
the success count plus the failure count reported in the final summary
equals N, and every input item contributes exactly one entry to the
results list (a success entry or an error entry), even though for
embed_files both the read step and the upload step can fail for the
same item. -/
theorem C1_batch_summary_counts (u readF uF : Nat → Except String String)
    (items : List TextItem) (sources : List String) :
    (embedTextsRun u items).successCount + (embedTextsRun u items).errorCount = items.length
    ∧ (embedTextsRun u items).results.length = items.length
    ∧ (embedTextsRun u items).results.countP (fun r => r.error.isNone)
        = (embedTextsRun u items).successCount
    ∧ (embedTextsRun u items).results.countP (fun r => r.error.isSome)
        = (embedTextsRun u items).errorCount
    ∧ filesSuccessCount (embedFilesRun readF uF sources)
        + filesErrorCount (embedFilesRun readF uF sources) = sources.length
    ∧ (embedFilesRun readF uF sources).results.length = sources.length
    ∧ strContains (textsSummary (embedTextsRun u items))
        (toString (embedTextsRun u items).successCount) = true
    ∧ strContains (textsSummary (embedTextsRun u items))
        (toString (embedTextsRun u items).errorCount) = true
    ∧ strContains (filesSummary (embedFilesRun readF uF sources))
        (toString (filesSuccessCount (embedFilesRun readF uF sources))) = true
    ∧ strContains (filesSummary (embedFilesRun readF uF sources))
        (toString (filesErrorCount (embedFilesRun readF uF sources))) = true := by
  have hlenT : (embedTextsRun u items).results.length = items.length := by
    unfold embedTextsRun
    rw [embedTextsLoop_results]
    simp [textResultsFrom_length]
  have hlenF : (embedFilesRun readF uF sources).results.length = sources.length := by
    unfold embedFilesRun
    rw [embedFilesLoop_results]
    simp [fileResultsFrom_length]
  refine ⟨?_, hlenT, ?_, ?_, ?_, hlenF, ?_, ?_, ?_, ?_⟩
  · unfold embedTextsRun
    have := embedTextsLoop_counts u items
      { results := [], successCount := 0, errorCount := 0, events := [] }
    simpa using this
  · unfold embedTextsRun
    exact (embedTextsLoop_succInv u items _ (by simp)).symm
  · unfold embedTextsRun
    exact (embedTextsLoop_errInv u items _ (by simp)).symm
  · have := length_filter_partition
      (fun r : FileResult => jsTruthyOptStr r.error) (embedFilesRun readF uF sources).results
    unfold filesSuccessCount filesErrorCount
    omega
  · exact textsSummary_contains_succ _
  · exact textsSummary_contains_err _
  · exact filesSummary_contains_succ _
  · exact filesSummary_contains_err _

/-- Claim C2: the batch handlers never throw when an individual item
fails: for every per-item outcome assignment the routed call returns a
normal envelope, each failure being recorded in the result list that
drives the aggregate summary; the branch throws (McpError InvalidParams)
only when the arguments fail the structural validator, before the loop
starts. -/
theorem C2_batch_never_throws (args : JsonV) (oc : Oracle) :
    (isValidEmbedTextsArgs args = true →
       (routeToolCall "embed_texts" args oc).result
         = .ok (handleEmbedTexts oc.upload (decodeTextItems (jsGetOpt args "items"))))
    ∧ (isValidEmbedTextsArgs args = false →
       (routeToolCall "embed_texts" args oc).result
         = .error (mcpErrorMessage errInvalidParams "Invalid arguments for embed_texts"))
    ∧ (isValidEmbedFilesArgs args = true →
       (routeToolCall "embed_files" args oc).result
         = .ok (handleEmbedFiles oc.readFile oc.upload (decodeSources (jsGetOpt args "sources"))))
    ∧ (isValidEmbedFilesArgs args = false →
       (routeToolCall "embed_files" args oc).result
         = .error (mcpErrorMessage errInvalidParams "Invalid arguments for embed_files"))
    ∧ (∀ (u : Nat → Except String String) (its : List TextItem),
        (embedTextsRun u its).results = textResultsFrom u 0 its)
    ∧ (∀ (rF u : Nat → Except String String) (srcs : List String),
        (embedFilesRun rF u srcs).results = fileResultsFrom rF u 0 srcs) := by
  refine ⟨?_, ?_, ?_, ?_, ?_, ?_⟩
  · intro hv; simp [routeToolCall, hv]
  · intro hv; simp [routeToolCall, hv]
  · intro hv; simp [routeToolCall, hv]
  · intro hv; simp [routeToolCall, hv]
  · intro u its
    unfold embedTextsRun
    rw [embedTextsLoop_results]
    simp
  · intro rF u srcs
    unfold embedFilesRun
    rw [embedFilesLoop_results]
    simp

/-- Claim C2 witness: a structurally valid embed_texts call whose only
item fails its upload still returns a normal envelope. -/
theorem C2_batch_never_throws_witness :
    isValidEmbedTextsArgs (.obj [("items", .arr [.obj [("text", .str "hello")]])]) = true
    ∧ (routeToolCall "embed_texts" (.obj [("items", .arr [.obj [("text", .str "hello")]])])
        { http := .resp 200 "OK" .null,
          readFile := fun _ => .error "boom",
          upload := fun _ => .error "upload failed" }).result
      = .ok (handleEmbedTexts (fun _ => .error "upload failed")
          (decodeTextItems (jsGetOpt (.obj [("items", .arr [.obj [("text", .str "hello")]])]) "items"))) := by
  refine ⟨by decide, ?_⟩
  exact (C2_batch_never_throws (.obj [("items", .arr [.obj [("text", .str "hello")]])])
    { http := .resp 200 "OK" .null,
      readFile := fun _ => .error "boom",
      upload := fun _ => .error "upload failed" }).1 (by decide)

/-- Claim C7: batch orchestration is order-preserving and strictly
sequential: the i-th recorded result carries the i-th input item's
source description, and the event trace is the per-item blocks in input
order, each item's result recorded before the next item's call is
issued. -/
theorem C7_batch_order_preserving (u readF uF : Nat → Except String String)
    (items : List TextItem) (sources : List String) :
    (embedTextsRun u items).results.map (fun r => r.sourceDesc) = textDescsFrom 0 items
    ∧ (embedTextsRun u items).events = textEventsFrom 0 items.length
    ∧ (embedFilesRun readF uF sources).results.map (fun r => r.source) = sources
    ∧ (embedFilesRun readF uF sources).events = fileEventsFrom readF 0 sources.length := by
  refine ⟨?_, ?_, ?_, ?_⟩
  · unfold embedTextsRun
    rw [embedTextsLoop_results]
    simp [textResultsFrom_map_desc]
  · unfold embedTextsRun
    rw [embedTextsLoop_events]
    simp
  · unfold embedFilesRun
    rw [embedFilesLoop_results]
    simp [fileResultsFrom_map_source]
  · unfold embedFilesRun
    rw [embedFilesLoop_events]
    simp

/-- Claim C3 counterexample: for the upload dispatcher
(handleEmbedFileContent), a status-400 response whose body carries a
message field produces an error whose message does not include the
numeric status code — the body message replaces the status line. -/
theorem C3_counterexample :
    strContains
      (mcpErrorMessage errInternal
        (embedFileContentErrorMessage 400 "Bad Request"
          (.obj [("message", .str "Collection not found")])))
      (toString (400 : Nat)) = false := by decide

/-- Claim C3 (amended): for every response with status >= 400, the error
raised by handleApiCall always carries the numeric status code in its
message; the error raised by handleEmbedFileContent carries it exactly
when the response body has no truthy message field. -/
theorem C3_amended_status_in_message (status : Nat) (statusText : String) (errorData : JsonV)
    (h : 400 ≤ status) :
    strContains
      (mcpErrorMessage errInternal (apiCallErrorMessage status statusText errorData))
      (toString status) = true
    ∧ (jsTruthy (jsGetOpt errorData "message") = false →
       strContains
         (mcpErrorMessage errInternal (embedFileContentErrorMessage status statusText errorData))
         (toString status) = true) := by
  have hbase : strContains ("API Error: " ++ toString status ++ " " ++ statusText)
      (toString status) = true :=
    strContains_append_right _ (strContains_append_right _ (strContains_end _ _))
  constructor
  · apply strContains_prepend
    simp only [apiCallErrorMessage]
    have hdet : strContains
        (if jsTruthy (jsGetOpt errorData "message") then
          "API Error: " ++ toString status ++ " " ++ statusText ++ " - "
            ++ jsToString (jsGetOpt errorData "message")
        else "API Error: " ++ toString status ++ " " ++ statusText)
        (toString status) = true := by
      split
      · exact strContains_append_right _ (strContains_append_right _ hbase)
      · exact hbase
    cases hjs : jsonStringify errorData
    · simpa [hjs] using hdet
    · simp only [hjs]
      split
      · exact strContains_append_right _ (strContains_append_right _ hdet)
      · exact hdet
  · intro hm
    apply strContains_prepend
    simp only [embedFileContentErrorMessage, hm]
    simpa using hbase

/-- Claim C3 witness: at a concrete 404 with an empty body both
dispatchers include the status code. -/
theorem C3_amended_status_in_message_witness :
    (400 ≤ 404
    ∧ strContains
        (mcpErrorMessage errInternal (apiCallErrorMessage 404 "Not Found" .null))
        (toString (404 : Nat)) = true)
    ∧ strContains
        (mcpErrorMessage errInternal (embedFileContentErrorMessage 404 "Not Found" .null))
        (toString (404 : Nat)) = true :=
  ⟨⟨by decide, (C3_amended_status_in_message 404 "Not Found" .null (by decide)).1⟩,
   (C3_amended_status_in_message 404 "Not Found" .null (by decide)).2 (by decide)⟩

/-- Claim C4: for every known tool and every argument value its
validator rejects, the router throws a validation error whose message
names the tool, and issues no HTTP request. -/
theorem C4_invalid_args_no_request (name : String) (hmem : name ∈ knownToolNames)
    (args : JsonV) (oc : Oracle) (hv : validatorFor name args = false) :
    (routeToolCall name args oc).result
      = .error (mcpErrorMessage errInvalidParams ("Invalid arguments for " ++ name))
    ∧ (routeToolCall name args oc).requests = []
    ∧ strContains (mcpErrorMessage errInvalidParams ("Invalid arguments for " ++ name)) name
        = true := by
  fin_cases hmem
  all_goals simp [validatorFor] at hv
  all_goals refine ⟨?_, ?_, ?_⟩
  all_goals
    first
    | decide
    | simp [routeToolCall, hv, mcpErrorMessage, errInvalidParams]

/-- Claim C4 witness: delete_file with null arguments is rejected with a
message naming the tool and no request is issued. -/
theorem C4_invalid_args_no_request_witness :
    ("delete_file" ∈ knownToolNames
    ∧ validatorFor "delete_file" JsonV.null = false)
    ∧ ((routeToolCall "delete_file" JsonV.null oracle0).result
        = .error (mcpErrorMessage errInvalidParams ("Invalid arguments for " ++ "delete_file"))
    ∧ (routeToolCall "delete_file" JsonV.null oracle0).requests = []
    ∧ strContains (mcpErrorMessage errInvalidParams ("Invalid arguments for " ++ "delete_file"))
        "delete_file" = true) := by
  refine ⟨⟨by decide, by decide⟩, ?_⟩
  exact C4_invalid_args_no_request "delete_file" (by decide) JsonV.null oracle0 (by decide)

/-- Claim C6: any exception raised in the validate/dispatch/format path
surfaces at the router boundary as a normal envelope with isError true
and the exception message prefixed with "Error: "; the handler itself
returns instead of propagating. -/
theorem C6_router_error_envelope (name : String) (args : JsonV) (oc : Oracle)
    (message : String)
    (h : (routeToolCall name args oc).result = .error message) :
    callToolRequest name args oc
      = { content := [{ type := "text", text := "Error: " ++ message }], isError := true } := by
  unfold callToolRequest
  rw [h]

/-- Claim C6 witness: a failed validation for list_collections surfaces
as an isError envelope with the prefixed message. -/
theorem C6_router_error_envelope_witness :
    (routeToolCall "list_collections" (.num 5) oracle0).result
      = .error (mcpErrorMessage errInvalidParams "Invalid arguments for list_collections")
    ∧ callToolRequest "list_collections" (.num 5) oracle0
      = { content := [{ type := "text", text := "Error: " ++ mcpErrorMessage errInvalidParams "Invalid arguments for list_collections" }],
          isError := true } :=
  ⟨by rfl,
   C6_router_error_envelope "list_collections" (.num 5) oracle0 _ (by rfl)⟩


-- ------------------------------------------------------------------
-- Non-emptiness of the formatter output (claim C5)
-- ------------------------------------------------------------------

theorem ok_ne_of_ne {X s : String} (hX : X ≠ "")
    (h : (Except.ok X : Except String String) = .ok s) : s ≠ "" := by
  cases h
  exact hX

theorem formatListCollections_ok_ne (d : JsonV) (dflt s : String) (hd : dflt ≠ "")
    (h : formatListCollections d dflt = .ok s) : s ≠ "" := by
  simp only [formatListCollections] at h
  iterate 4 (all_goals try split at h)
  all_goals
    first
    | (refine ok_ne_of_ne ?_ h
       first
       | exact hd
       | decide
       | exact append_ne_empty_left _ (by decide)
       | exact append_ne_empty_left _ (append_ne_empty_left _ (by decide)))
    | simp at h

theorem formatListFiles_ok_ne (d : JsonV) (dflt s : String) (hd : dflt ≠ "")
    (h : formatListFiles d dflt = .ok s) : s ≠ "" := by
  simp only [formatListFiles] at h
  iterate 4 (all_goals try split at h)
  all_goals
    first
    | (refine ok_ne_of_ne ?_ h
       first
       | exact hd
       | decide
       | exact append_ne_empty_left _ (by decide)
       | exact append_ne_empty_left _ (append_ne_empty_left _ (by decide)))
    | simp at h

theorem formatQueryCollection_ok_ne (d : JsonV) (dflt s : String) (hd : dflt ≠ "")
    (h : formatQueryCollection d dflt = .ok s) : s ≠ "" := by
  simp only [formatQueryCollection] at h
  iterate 4 (all_goals try split at h)
  all_goals
    first
    | (refine ok_ne_of_ne ?_ h
       first
       | exact hd
       | decide
       | exact append_ne_empty_left _ (by decide)
       | exact append_ne_empty_left _ (append_ne_empty_left _ (by decide))
       | exact append_ne_empty_left _ (append_ne_empty_left _ (append_ne_empty_left _ (by decide)))
       | (split <;>
          first
          | decide
          | exact append_ne_empty_left _ (by decide)
          | exact append_ne_empty_left _ (append_ne_empty_left _ (by decide))
          | exact append_ne_empty_left _ (append_ne_empty_left _ (append_ne_empty_left _ (by decide)))))
    | simp at h

theorem formatSummary_ok_ne (toolName : String) (d : JsonV) (s : String)
    (hdeg : ¬(toolName = "add_file_to_collection"
      ∧ jsTruthy (jsGetOpt d "message") = true
      ∧ jsToString (jsGetOpt d "message") = ""))
    (h : formatSummary toolName d = .ok s) : s ≠ "" := by
  have hd : ("Tool \x27" ++ toolName ++ "\x27 executed successfully.") ≠ "" :=
    append_ne_empty_left _ (append_ne_empty_left _ (by decide))
  by_cases h1 : toolName = "list_collections"
  · subst h1
    simp only [formatSummary, String.reduceEq, reduceIte] at h
    exact formatListCollections_ok_ne _ _ _ (by decide) h
  by_cases h2 : toolName = "create_collection"
  · subst h2
    simp only [formatSummary, String.reduceEq, reduceIte] at h
    refine ok_ne_of_ne ?_ h
    split
    · exact append_ne_empty_left _ (append_ne_empty_left _
        (append_ne_empty_left _ (append_ne_empty_left _ (by decide))))
    · decide
  by_cases h3 : toolName = "add_file_to_collection"
  · subst h3
    simp only [formatSummary, String.reduceEq, reduceIte] at h
    refine ok_ne_of_ne ?_ h
    simp only [eq_self_iff_true, true_and, not_and] at hdeg
    split
    · next hc => exact hdeg hc
    · decide
  by_cases h4 : toolName = "list_files_in_collection"
  · subst h4
    simp only [formatSummary, String.reduceEq, reduceIte] at h
    exact formatListFiles_ok_ne _ _ _ (by decide) h
  by_cases h5 : toolName = "query_collection"
  · subst h5
    simp only [formatSummary, String.reduceEq, reduceIte] at h
    exact formatQueryCollection_ok_ne _ _ _ (by decide) h
  by_cases h6 : toolName = "delete_file"
  · subst h6
    simp only [formatSummary, String.reduceEq, reduceIte] at h
    exact ok_ne_of_ne (by decide) h
  by_cases h7 : toolName = "get_arangodb_node"
  · subst h7
    simp only [formatSummary, String.reduceEq, reduceIte] at h
    refine ok_ne_of_ne ?_ h
    split
    · exact append_ne_empty_left _ (append_ne_empty_left _ (by decide))
    · exact append_ne_empty_left _ (by decide)
  · simp only [formatSummary, h1, h2, h3, h4, h5, h6, h7, if_false, reduceIte] at h
    exact ok_ne_of_ne hd h

/-- Claim C5 counterexample: for add_file_to_collection with a payload
whose message field is a truthy value rendering to the empty string (an
empty array), the formatter returns an empty text, so the claimed
non-empty text string is not delivered for every JSON-serializable
payload. -/
theorem C5_counterexample :
    envelopeText (formatResponse "add_file_to_collection" (.obj [("message", .arr [])])) = "" := by
  decide

/-- Claim C5 (amended): formatResponse is total (the catch downgrades
every internal formatting exception to the fallback text serializing the
raw payload) and its envelope holds exactly one text item, whose text is
non-empty for every tool name and payload except the degenerate case the
counterexample forces: add_file_to_collection with a truthy message
value rendering to the empty string, which is passed through. -/
theorem C5_formatter_total (toolName : String) (d : JsonV)
    (hdeg : ¬(toolName = "add_file_to_collection"
      ∧ jsTruthy (jsGetOpt d "message") = true
      ∧ jsToString (jsGetOpt d "message") = "")) :
    (formatResponse toolName d).content.length = 1
    ∧ envelopeText (formatResponse toolName d) ≠ ""
    ∧ (∀ e, formatSummary toolName d = .error e →
        envelopeText (formatResponse toolName d) = fallbackSummary toolName d) := by
  have htext : envelopeText (formatResponse toolName d)
      = (match formatSummary toolName d with
         | .ok s => s
         | .error _ => fallbackSummary toolName d) := rfl
  have hfb : fallbackSummary toolName d ≠ "" :=
    append_ne_empty_left _ (append_ne_empty_left _ (append_ne_empty_left _ (by decide)))
  refine ⟨rfl, ?_, ?_⟩
  · rw [htext]
    cases hfs : formatSummary toolName d
    · simpa using hfb
    · next s => simpa using formatSummary_ok_ne toolName d s hdeg hfs
  · intro e he
    rw [htext, he]

/-- Claim C5 witness: a concrete benign instance of the amended
statement. -/
theorem C5_formatter_total_witness :
    (formatResponse "list_collections" (.arr [])).content.length = 1
    ∧ envelopeText (formatResponse "list_collections" (.arr [])) ≠ ""
    ∧ (∀ e, formatSummary "list_collections" (.arr []) = .error e →
        envelopeText (formatResponse "list_collections" (.arr []))
          = fallbackSummary "list_collections" (.arr [])) :=
  C5_formatter_total "list_collections" (.arr []) (by decide)

/-- Claim C8: isValidQueryCollectionArgs accepts a filter list only when
every element satisfies its shape (include: object with string field
and string value; exclude: object with string field and at least one of
value or pattern, each a string when present); any violating element
makes the whole validation false.  Each filter list is covered under its
own hypothesis alone, so argument objects carrying only one of the two
lists are covered as well. -/
theorem C8_query_filter_elements (args : JsonV) (fs : List JsonV) :
    (jsGetOpt args "includeMetadataFilters" = .arr fs →
      (isValidQueryCollectionArgs args = true → fs.all includeFilterOk = true)
      ∧ (fs.all includeFilterOk = false → isValidQueryCollectionArgs args = false))
    ∧ (jsGetOpt args "excludeMetadataFilters" = .arr fs →
      (isValidQueryCollectionArgs args = true → fs.all excludeFilterOk = true)
      ∧ (fs.all excludeFilterOk = false → isValidQueryCollectionArgs args = false)) := by
  constructor
  · intro hInc
    constructor
    · intro hv
      simp only [isValidQueryCollectionArgs, hInc, Bool.and_eq_true] at hv
      exact hv.1.2
    · intro hb
      simp [isValidQueryCollectionArgs, hInc, hb]
  · intro hExc
    constructor
    · intro hv
      simp only [isValidQueryCollectionArgs, hExc, Bool.and_eq_true] at hv
      exact hv.2
    · intro hb
      simp [isValidQueryCollectionArgs, hExc, hb]

/-- Claim C8 witness: an argument object carrying only an include list
whose single element is well-shaped passes validation and the theorem
yields the element fact; one carrying only a violating include element
(missing its value) is rejected. -/
theorem C8_query_filter_elements_witness :
    [JsonV.obj [("field", .str "f"), ("value", .str "v")]].all includeFilterOk = true
    ∧ isValidQueryCollectionArgs
        (.obj [("collectionId", .str "c"), ("queryText", .str "q"),
               ("includeMetadataFilters", .arr [.obj [("field", .str "f")]])]) = false :=
  ⟨((C8_query_filter_elements
      (.obj [("collectionId", .str "c"), ("queryText", .str "q"),
             ("includeMetadataFilters", .arr [.obj [("field", .str "f"), ("value", .str "v")]])])
      [.obj [("field", .str "f"), ("value", .str "v")]]).1 rfl).1 (by decide),
   ((C8_query_filter_elements
      (.obj [("collectionId", .str "c"), ("queryText", .str "q"),
             ("includeMetadataFilters", .arr [.obj [("field", .str "f")]])])
      [.obj [("field", .str "f")]]).1 rfl).2 (by decide)⟩

/-- Claim C9: isValidEmbedFilesArgs rejects an empty sources array and
any source element that is not a string or is blank after trimming, so
embed_files requires at least one non-blank file path. -/
theorem C9_embed_files_sources (args : JsonV) (ss : List JsonV)
    (hs : jsGetOpt args "sources" = .arr ss) :
    (ss = [] → isValidEmbedFilesArgs args = false)
    ∧ (ss.all sourceElemOk = false → isValidEmbedFilesArgs args = false)
    ∧ (isValidEmbedFilesArgs args = true → ss ≠ [] ∧ ss.all sourceElemOk = true) := by
  refine ⟨?_, ?_, ?_⟩
  · intro he
    subst he
    simp [isValidEmbedFilesArgs, hs]
  · intro hb
    simp [isValidEmbedFilesArgs, hs, hb]
  · intro hv
    simp only [isValidEmbedFilesArgs, hs, Bool.and_eq_true, decide_eq_true_eq] at hv
    rcases hv with ⟨⟨_, hlen, hall⟩, _⟩
    exact ⟨fun he => hlen (by simp [he]), hall⟩

/-- Claim C9 witness: one non-blank path passes; the theorem then yields
the element-wise facts. -/
theorem C9_embed_files_sources_witness :
    isValidEmbedFilesArgs (.obj [("sources", .arr [.str "a.txt"])]) = true
    ∧ ([JsonV.str "a.txt"] ≠ [] ∧ [JsonV.str "a.txt"].all sourceElemOk = true) :=
  ⟨by decide,
   (C9_embed_files_sources (.obj [("sources", .arr [.str "a.txt"])])
      [.str "a.txt"] rfl).2.2 (by decide)⟩

/-- Claim C10: isValidListCollectionsArgs accepts exactly the non-null
object values with zero own enumerable keys; every non-null object
argument carrying at least one property is rejected and the
list_collections invocation issues no HTTP request. -/
theorem C10_list_collections_empty_only (args : JsonV) :
    (isValidListCollectionsArgs args = true ↔ (isObjNonNull args = true ∧ jsKeys args = []))
    ∧ (∀ oc : Oracle, isObjNonNull args = true → jsKeys args ≠ [] →
        (routeToolCall "list_collections" args oc).result
          = .error (mcpErrorMessage errInvalidParams "Invalid arguments for list_collections")
        ∧ (routeToolCall "list_collections" args oc).requests = []) := by
  constructor
  · simp [isValidListCollectionsArgs]
  · intro oc hobj hkeys
    have hv : isValidListCollectionsArgs args = false := by
      simp [isValidListCollectionsArgs, hkeys]
    constructor <;> simp [routeToolCall, hv]

/-- Claim C10 witness: a one-property object is rejected without any
request. -/
theorem C10_list_collections_empty_only_witness :
    (isValidListCollectionsArgs (.obj [("x", .num 1)]) = true
      ↔ (isObjNonNull (.obj [("x", .num 1)]) = true ∧ jsKeys (.obj [("x", .num 1)]) = []))
    ∧ ((routeToolCall "list_collections" (.obj [("x", .num 1)]) oracle0).result
        = .error (mcpErrorMessage errInvalidParams "Invalid arguments for list_collections")
      ∧ (routeToolCall "list_collections" (.obj [("x", .num 1)]) oracle0).requests = []) :=
  ⟨(C10_list_collections_empty_only (.obj [("x", .num 1)])).1,
   (C10_list_collections_empty_only (.obj [("x", .num 1)])).2 oracle0 (by decide) (by decide)⟩
